import Mathlib

/-! Delay-load hook of `win_delay_load_hook.cc`.

A shallow embedding of `crates/neon-runtime/src/win_delay_load_hook.cc`.

* C strings (`char*`, `wchar_t*`) are lists of code units (`Nat`); the
  terminating NUL is implicit: reading past the end of the list reads the
  terminator, and a `0` inside a list terminates the string there, as it
  would in memory.
* The two file-level statics `module_name_checked` and `ignore_delay_load`
  are the fields of `State`; `load_exe_hook` passes the state explicitly.
* The Windows and C-runtime functions the file calls are not part of the
  repository. They are modelled after their documented contracts, the only
  unknowns being the path of the process image and the value of the process
  handle, both fields of `Platform`.
-/

namespace WinDelayLoadHook

/-! ## Platform model -/

/-- What the operating system answers when the hook runs. -/
structure Platform where
  /-- Full path of the executable image of the current process, as UTF-16
  code units; `none` when the query for it fails. -/
  modulePath : Option (List Nat)
  /-- Value of `GetModuleHandle(NULL)`: the handle of the process image. -/
  hModule : Nat
  deriving DecidableEq, Repr

/-- Code units of a string literal (`"..."` or `L"..."`) of the source. -/
def lit (s : String) : List Nat := s.toList.map Char.toNat

/-- The characters of a C string: everything before the first NUL. -/
def cstr (l : List Nat) : List Nat := l.takeWhile (fun c => c ≠ 0)

/-- Lower-casing of the C locale (`tolower`, `towlower`): only `A`..`Z` change. -/
def ascii_tolower (c : Nat) : Nat := if 65 ≤ c ∧ c ≤ 90 then c + 32 else c

/-- The comparison loop shared by `_wcsicmp` and `stricmp`:
`do { f = tolower(*dst++); l = tolower(*src++); } while (f && f == l); return f - l;`
The end of a list reads as the terminating NUL. -/
def icmp : List Nat → List Nat → Int
  | [], [] => 0
  | [], b :: _ => 0 - (ascii_tolower b : Int)
  | a :: _, [] => (ascii_tolower a : Int) - 0
  | a :: as, b :: bs =>
    if ascii_tolower a ≠ 0 ∧ ascii_tolower a = ascii_tolower b then icmp as bs
    else (ascii_tolower a : Int) - (ascii_tolower b : Int)

/-- C runtime `_wcsicmp`: case-insensitive comparison of two wide strings. -/
def _wcsicmp (string1 string2 : List Nat) : Int := icmp string1 string2

/-- C runtime `stricmp`: case-insensitive comparison of two narrow strings. -/
def stricmp (string1 string2 : List Nat) : Int := icmp string1 string2

/-- `GetModuleFileNameW(nullptr, buf, nSize)`: the string left in the buffer
(which the caller zero-initialised) and the returned length. A path shorter
than `nSize` is copied whole and its length returned; a longer one is cut to
`nSize` characters including the terminator and `nSize` is returned; on
failure nothing is written and `0` is returned. -/
def GetModuleFileNameW (p : Platform) (nSize : Nat) : List Nat × Nat :=
  match p.modulePath with
  | none => ([], 0)
  | some path =>
    if path.length < nSize then (path, path.length)
    else (path.take (nSize - 1), nSize)

/-- `GetModuleHandle(NULL)`. -/
def GetModuleHandle (p : Platform) : Nat := p.hModule

/-- `_MAX_DRIVE` of `<stdlib.h>`. -/
def _MAX_DRIVE : Nat := 3
/-- `_MAX_DIR` of `<stdlib.h>`. -/
def _MAX_DIR : Nat := 256
/-- `_MAX_FNAME` of `<stdlib.h>`. -/
def _MAX_FNAME : Nat := 256
/-- `_MAX_EXT` of `<stdlib.h>`. -/
def _MAX_EXT : Nat := 256

/-- The four components `_wsplitpath_s` writes. -/
structure SplitPath where
  drive : List Nat
  dir : List Nat
  fname : List Nat
  ext : List Nat
  deriving DecidableEq, Repr

/-- The scan loop of `_wsplitpath_s` over the characters after the drive,
`i` being the index of the next character: it keeps the index one past the
last `/` (47) or `\` (92) seen, and the index of the last `.` (46) seen. -/
def scanPath : List Nat → Nat → Option Nat → Option Nat → Option Nat × Option Nat
  | [], _, last_slash, dot => (last_slash, dot)
  | c :: cs, i, last_slash, dot =>
    if c = 47 ∨ c = 92 then scanPath cs (i + 1) (some (i + 1)) dot
    else if c = 46 then scanPath cs (i + 1) last_slash (some i)
    else scanPath cs (i + 1) last_slash dot

/-- What `_wsplitpath_s` does once the drive is taken off: `path` is what
follows the drive. The directory runs through the last `/` or `\`; the
extension starts at the last `.` when that `.` lies in the file name, and
includes it; without such a `.` the extension is empty. A component that does
not fit its buffer (with its terminator) is an error. -/
def splitAfterDrive (drive path : List Nat) : Option SplitPath :=
  let sc := scanPath path 0 none none
  let dirLen := sc.1.getD 0
  if _MAX_DIR ≤ dirLen then none
  else
    let dir := path.take dirLen
    match sc.2 with
    | some d =>
      if dirLen ≤ d then
        if _MAX_FNAME ≤ d - dirLen then none
        else if _MAX_EXT ≤ path.length - d then none
        else some ⟨drive, dir, (path.take d).drop dirLen, path.drop d⟩
      else
        if _MAX_FNAME ≤ path.length - dirLen then none
        else some ⟨drive, dir, path.drop dirLen, []⟩
    | none =>
      if _MAX_FNAME ≤ path.length - dirLen then none
      else some ⟨drive, dir, path.drop dirLen, []⟩

/-- C runtime `_wsplitpath_s(path, drive, _MAX_DRIVE, dir, _MAX_DIR, fname,
_MAX_FNAME, ext, _MAX_EXT)`: `some` of the components when it returns `0`,
`none` when it returns an error. The drive is the first two characters when
the second is `:` (58). -/
def _wsplitpath_s (path0 : List Nat) : Option SplitPath :=
  let path := cstr path0
  if path[_MAX_DRIVE - 2]? = some 58 then
    splitAfterDrive (path.take (_MAX_DRIVE - 1)) (path.drop (_MAX_DRIVE - 1))
  else splitAfterDrive [] path

/-! ## The source file -/

/-- `dliNotePreLoadLibrary` of `<delayimp.h>`. -/
def dliNotePreLoadLibrary : Nat := 1

/-- The null pointer. -/
def NULL : Nat := 0

/-- `DelayLoadInfo` of `<delayimp.h>`; the hook reads only `szDll`, the name
of the library about to be loaded. -/
structure DelayLoadInfo where
  szDll : List Nat
  deriving DecidableEq, Repr

/-- The statics of the file, and a ghost counter of the calls of
`check_module_name` made so far (not a variable of the source; it records
the classifier runs so that they can be counted). -/
structure State where
  module_name_checked : Bool
  ignore_delay_load : Bool
  classifier_runs : Nat
  deriving DecidableEq, Repr

/-- The statics as initialised at load time. -/
def State.init : State := ⟨false, false, 0⟩

/-- `static bool check_module_name()`. -/
def check_module_name (p : Platform) : Bool :=
  let len : Nat := 512
  let r := GetModuleFileNameW p len
  let module_name := r.1
  let actual_len := r.2
  if len = actual_len then false
  else
    match _wsplitpath_s module_name with
    | none => false
    | some sp => decide (_wcsicmp sp.ext (lit "node") = 0)

/-- `FARPROC WINAPI load_exe_hook(unsigned int event, DelayLoadInfo* info)`:
the returned pointer and the statics after the call. -/
def load_exe_hook (p : Platform) (event : Nat) (info : DelayLoadInfo) (s : State) :
    Nat × State :=
  if event ≠ dliNotePreLoadLibrary then (NULL, s)
  else
    let s1 : State :=
      if !s.module_name_checked then
        { module_name_checked := true
          ignore_delay_load := check_module_name p
          classifier_runs := s.classifier_runs + 1 }
      else s
    if !s1.ignore_delay_load && decide (stricmp info.szDll (lit "node.exe") ≠ 0) then (NULL, s1)
    else (GetModuleHandle p, s1)

/-- Case-insensitive equality of two C strings: they have the same
characters once each is lower-cased. -/
def eq_ignoring_case (a b : List Nat) : Prop :=
  (cstr a).map ascii_tolower = (cstr b).map ascii_tolower

instance (a b : List Nat) : Decidable (eq_ignoring_case a b) := by
  unfold eq_ignoring_case; infer_instance

/-! ## The loader calling the hook -/

/-- One notification from the delay-load runtime: the event code and import
descriptor it passes, and what the operating system would answer during
that call. -/
structure Call where
  platform : Platform
  event : Nat
  info : DelayLoadInfo
  deriving DecidableEq, Repr

/-- The runtime notifying the hook of each call in turn, the statics living
on between the calls: the pointers returned, in order, and the final state. -/
def run_hook : List Call → State → List Nat × State
  | [], s => ([], s)
  | c :: cs, s =>
    let r := load_exe_hook c.platform c.event c.info s
    let rest := run_hook cs r.2
    (r.1 :: rest.1, rest.2)

/-- The stateless decision the hook is compared with: the handle of the
process image when the event is the pre-load-library notification and either
the classifier holds of the process image or the library name is `node.exe`
up to case; the null pointer otherwise. -/
def stateless_decision (p : Platform) (event : Nat) (info : DelayLoadInfo) : Nat :=
  if event = dliNotePreLoadLibrary ∧
      (check_module_name p = true ∨ eq_ignoring_case info.szDll (lit "node.exe")) then
    GetModuleHandle p
  else NULL

/-! ## Lemmas on the platform model -/

theorem ascii_tolower_eq_zero (c : Nat) : ascii_tolower c = 0 ↔ c = 0 := by
  unfold ascii_tolower; split <;> omega

theorem cstr_nil : cstr [] = [] := rfl

theorem cstr_cons_zero (l : List Nat) : cstr (0 :: l) = [] := by
  simp [cstr]

theorem cstr_cons_ne (c : Nat) (l : List Nat) (h : c ≠ 0) : cstr (c :: l) = c :: cstr l := by
  simp [cstr, List.takeWhile_cons, h]

/-- The comparison loop returns `0` exactly on strings equal up to case. -/
theorem icmp_eq_zero_iff (a b : List Nat) : icmp a b = 0 ↔ eq_ignoring_case a b := by
  unfold eq_ignoring_case
  induction a generalizing b with
  | nil =>
    cases b with
    | nil => simp [icmp]
    | cons y ys =>
      have hz := ascii_tolower_eq_zero y
      by_cases hy : y = 0
      · subst hy; simp [icmp, cstr_cons_zero, cstr_nil, ascii_tolower]
      · have : ascii_tolower y ≠ 0 := fun h => hy (hz.1 h)
        simp only [icmp, cstr_cons_ne y ys hy, cstr_nil, List.map_nil, List.map_cons]
        constructor
        · intro h; omega
        · intro h; simp at h
  | cons x xs ih =>
    cases b with
    | nil =>
      have hz := ascii_tolower_eq_zero x
      by_cases hx : x = 0
      · subst hx; simp [icmp, cstr_cons_zero, cstr_nil, ascii_tolower]
      · have : ascii_tolower x ≠ 0 := fun h => hx (hz.1 h)
        simp only [icmp, cstr_cons_ne x xs hx, cstr_nil, List.map_nil, List.map_cons]
        constructor
        · intro h; omega
        · intro h; simp at h
    | cons y ys =>
      have hzx := ascii_tolower_eq_zero x
      have hzy := ascii_tolower_eq_zero y
      simp only [icmp]
      split
      next h =>
        have hx : x ≠ 0 := fun e => h.1 (hzx.2 e)
        have hy : y ≠ 0 := fun e => h.1 (h.2 ▸ hzy.2 e)
        rw [ih ys, cstr_cons_ne x xs hx, cstr_cons_ne y ys hy]
        simp [h.2]
      next h =>
        by_cases hx : x = 0
        · by_cases hy : y = 0
          · subst hx; subst hy; simp [cstr_cons_zero]
          · have : ascii_tolower y ≠ 0 := fun e => hy (hzy.1 e)
            subst hx
            rw [cstr_cons_zero, cstr_cons_ne y ys hy]
            simp only [List.map_nil, List.map_cons]
            constructor
            · intro e; simp [ascii_tolower] at e; omega
            · intro e; simp at e
        · have hx0 : ascii_tolower x ≠ 0 := fun e => hx (hzx.1 e)
          have hne : ascii_tolower x ≠ ascii_tolower y := fun e => h ⟨hx0, e⟩
          by_cases hy : y = 0
          · subst hy
            rw [cstr_cons_zero, cstr_cons_ne x xs hx]
            simp only [List.map_nil, List.map_cons]
            constructor
            · intro e; omega
            · intro e; simp at e
          · rw [cstr_cons_ne x xs hx, cstr_cons_ne y ys hy]
            simp only [List.map_cons, List.cons.injEq]
            constructor
            · intro e; omega
            · intro e; exact absurd e.1 hne

theorem stricmp_eq_zero_iff (a b : List Nat) : stricmp a b = 0 ↔ eq_ignoring_case a b :=
  icmp_eq_zero_iff a b

/-- A classified state is left as it is by any call. -/
theorem hook_state_of_checked (p : Platform) (event : Nat) (info : DelayLoadInfo) (s : State)
    (h : s.module_name_checked = true) : (load_exe_hook p event info s).2 = s := by
  unfold load_exe_hook
  simp only [h]
  split
  · rfl
  · simp only [Bool.not_true, Bool.false_eq_true, if_false]
    split <;> rfl

/-- The pointer returned on the pre-load event from a classified state. -/
theorem hook_result_of_checked (p : Platform) (info : DelayLoadInfo) (s : State)
    (h : s.module_name_checked = true) :
    (load_exe_hook p dliNotePreLoadLibrary info s).1 =
      if s.ignore_delay_load = true ∨ eq_ignoring_case info.szDll (lit "node.exe") then
        GetModuleHandle p
      else NULL := by
  unfold load_exe_hook
  simp only [h, ne_eq, not_true_eq_false, if_false, Bool.not_true, Bool.false_eq_true]
  cases hi : s.ignore_delay_load <;>
    by_cases hn : eq_ignoring_case info.szDll (lit "node.exe") <;>
    simp [hn, stricmp_eq_zero_iff]

/-- The state after the pre-load event from an unclassified state. -/
theorem hook_state_of_unchecked (p : Platform) (info : DelayLoadInfo) (s : State)
    (h : s.module_name_checked = false) :
    (load_exe_hook p dliNotePreLoadLibrary info s).2 =
      ⟨true, check_module_name p, s.classifier_runs + 1⟩ := by
  unfold load_exe_hook
  simp only [h, ne_eq, not_true_eq_false, if_false, Bool.not_false, if_true]
  split <;> rfl

/-- The pointer returned on the pre-load event from an unclassified state. -/
theorem hook_result_of_unchecked (p : Platform) (info : DelayLoadInfo) (s : State)
    (h : s.module_name_checked = false) :
    (load_exe_hook p dliNotePreLoadLibrary info s).1 =
      if check_module_name p = true ∨ eq_ignoring_case info.szDll (lit "node.exe") then
        GetModuleHandle p
      else NULL := by
  unfold load_exe_hook
  simp only [h, ne_eq, not_true_eq_false, if_false, Bool.not_false, if_true]
  cases hi : check_module_name p <;>
    by_cases hn : eq_ignoring_case info.szDll (lit "node.exe") <;>
    simp [hn, stricmp_eq_zero_iff]

theorem hook_of_other_event (p : Platform) (event : Nat) (info : DelayLoadInfo) (s : State)
    (h : event ≠ dliNotePreLoadLibrary) : load_exe_hook p event info s = (NULL, s) := by
  unfold load_exe_hook
  simp [h]

theorem run_hook_append (xs ys : List Call) (s : State) :
    run_hook (xs ++ ys) s =
      ((run_hook xs s).1 ++ (run_hook ys (run_hook xs s).2).1,
        (run_hook ys (run_hook xs s).2).2) := by
  induction xs generalizing s with
  | nil => simp [run_hook]
  | cons c cs ih => simp [run_hook, ih]

theorem run_hook_state_of_checked (calls : List Call) (s : State)
    (h : s.module_name_checked = true) : (run_hook calls s).2 = s := by
  induction calls with
  | nil => rfl
  | cons c cs ih =>
    simp only [run_hook]
    rw [hook_state_of_checked _ _ _ _ h]
    exact ih

/-- Any call from a state that has seen at most one classifier run, and none
while unclassified, leads to such a state again. -/
theorem hook_runs_le_one (p : Platform) (event : Nat) (info : DelayLoadInfo) (s : State)
    (h : if s.module_name_checked = true then s.classifier_runs ≤ 1 else s.classifier_runs = 0) :
    if (load_exe_hook p event info s).2.module_name_checked = true then
      (load_exe_hook p event info s).2.classifier_runs ≤ 1
    else (load_exe_hook p event info s).2.classifier_runs = 0 := by
  by_cases he : event = dliNotePreLoadLibrary
  · subst he
    cases hc : s.module_name_checked
    · rw [hook_state_of_unchecked p info s hc]
      simp [hc] at h
      simp [h]
    · rw [hook_state_of_checked p _ info s hc]
      exact h
  · rw [hook_of_other_event p event info s he]
    exact h

theorem run_hook_runs_le_one (calls : List Call) (s : State)
    (h : if s.module_name_checked = true then s.classifier_runs ≤ 1 else s.classifier_runs = 0) :
    (run_hook calls s).2.classifier_runs ≤ 1 := by
  induction calls generalizing s with
  | nil =>
    simp only [run_hook]
    split at h
    · exact h
    · omega
  | cons c cs ih =>
    simp only [run_hook]
    exact ih _ (hook_runs_le_one c.platform c.event c.info s h)

/-- C1: on every event other than `dliNotePreLoadLibrary`, whatever the import
descriptor, the platform and the prior state, `load_exe_hook` returns `NULL`
and leaves the state as it was: both flags keep their values and the
classifier is not run. -/
theorem load_exe_hook_other_event (p : Platform) (event : Nat) (info : DelayLoadInfo)
    (s : State) (h : event ≠ dliNotePreLoadLibrary) :
    load_exe_hook p event info s = (NULL, s) :=
  hook_of_other_event p event info s h

theorem load_exe_hook_other_event_witness :
    (2 ≠ dliNotePreLoadLibrary ∧
      load_exe_hook ⟨some (lit "C:\\app\\node.exe"), 4194304⟩ 2 ⟨lit "node.exe"⟩ State.init =
        (NULL, State.init)) ∧
    (0 ≠ dliNotePreLoadLibrary ∧
      load_exe_hook ⟨some (lit "C:\\app\\node.exe"), 4194304⟩ 0 ⟨lit "node.exe"⟩ ⟨true, true, 1⟩ =
        (NULL, ⟨true, true, 1⟩)) :=
  ⟨⟨by decide, load_exe_hook_other_event _ 2 _ _ (by decide)⟩,
    ⟨by decide, load_exe_hook_other_event _ 0 _ _ (by decide)⟩⟩

/-- C2: in a state classified as scoped (`module_name_checked` set,
`ignore_delay_load` clear), `load_exe_hook` on the pre-load-library event
returns the handle of the process image when the library name equals
`node.exe` up to case, and `NULL` for every other name, the state staying as
it was; `NODE.EXE` and `node.exe` get the handle, `kernel32.dll` gets `NULL`. -/
theorem load_exe_hook_scoped (p : Platform) (info : DelayLoadInfo) (s : State)
    (hc : s.module_name_checked = true) (hi : s.ignore_delay_load = false) :
    load_exe_hook p dliNotePreLoadLibrary info s =
        (if eq_ignoring_case info.szDll (lit "node.exe") then GetModuleHandle p else NULL, s) ∧
      load_exe_hook p dliNotePreLoadLibrary ⟨lit "NODE.EXE"⟩ s = (GetModuleHandle p, s) ∧
      load_exe_hook p dliNotePreLoadLibrary ⟨lit "node.exe"⟩ s = (GetModuleHandle p, s) ∧
      load_exe_hook p dliNotePreLoadLibrary ⟨lit "kernel32.dll"⟩ s = (NULL, s) := by
  have key : ∀ i : DelayLoadInfo, load_exe_hook p dliNotePreLoadLibrary i s =
      (if eq_ignoring_case i.szDll (lit "node.exe") then GetModuleHandle p else NULL, s) := by
    intro i
    refine Prod.ext ?_ (hook_state_of_checked p _ i s hc)
    rw [hook_result_of_checked p i s hc]
    simp [hi]
  refine ⟨key info, ?_, ?_, ?_⟩
  · rw [key]; rw [if_pos (by decide)]
  · rw [key]; rw [if_pos (by decide)]
  · rw [key]; rw [if_neg (by decide)]

theorem load_exe_hook_scoped_witness :
    load_exe_hook ⟨some (lit "C:\\app\\node.exe"), 4194304⟩ dliNotePreLoadLibrary
        ⟨lit "Node.Exe"⟩ ⟨true, false, 1⟩ =
        (if eq_ignoring_case (lit "Node.Exe") (lit "node.exe") then 4194304 else NULL,
          ⟨true, false, 1⟩) ∧
      load_exe_hook ⟨some (lit "C:\\app\\node.exe"), 4194304⟩ dliNotePreLoadLibrary
        ⟨lit "NODE.EXE"⟩ ⟨true, false, 1⟩ = (4194304, ⟨true, false, 1⟩) ∧
      load_exe_hook ⟨some (lit "C:\\app\\node.exe"), 4194304⟩ dliNotePreLoadLibrary
        ⟨lit "node.exe"⟩ ⟨true, false, 1⟩ = (4194304, ⟨true, false, 1⟩) ∧
      load_exe_hook ⟨some (lit "C:\\app\\node.exe"), 4194304⟩ dliNotePreLoadLibrary
        ⟨lit "kernel32.dll"⟩ ⟨true, false, 1⟩ = (NULL, ⟨true, false, 1⟩) :=
  load_exe_hook_scoped ⟨some (lit "C:\\app\\node.exe"), 4194304⟩ ⟨lit "Node.Exe"⟩
    ⟨true, false, 1⟩ rfl rfl

/-- C7: in a process classified as a standalone executable, the pre-load-library
event for the library `iojs.exe` gets `NULL` from `load_exe_hook`, not the
handle of the process image, both from the classified state and on the first
call of a process whose image is `node.exe`; the file header says the hook
intervenes for `iojs.exe`. -/
theorem load_exe_hook_iojs :
    load_exe_hook ⟨some (lit "C:\\app\\node.exe"), 4194304⟩ dliNotePreLoadLibrary
        ⟨lit "iojs.exe"⟩ ⟨true, false, 1⟩ = (NULL, ⟨true, false, 1⟩) ∧
      load_exe_hook ⟨some (lit "C:\\app\\node.exe"), 4194304⟩ dliNotePreLoadLibrary
        ⟨lit "iojs.exe"⟩ State.init = (NULL, ⟨true, false, 1⟩) ∧
      load_exe_hook ⟨some (lit "C:\\app\\node.exe"), 4194304⟩ dliNotePreLoadLibrary
        ⟨lit "node.exe"⟩ ⟨true, false, 1⟩ = (4194304, ⟨true, false, 1⟩) := by
  decide

/-- C4: classification runs at most once and is terminal. In any sequence of
calls, whatever their events, names and platform answers, once
`module_name_checked` is set the later calls leave the whole state as it is
(both flags, and no further classifier run); from the initial state the
classifier runs at most once; and two consecutive pre-load calls from an
unclassified state run it exactly once, on the first call, the second call
deciding with the value recorded then. -/
theorem classification_once :
    (∀ (s : State) (before after : List Call),
        (run_hook before s).2.module_name_checked = true →
        (run_hook (before ++ after) s).2 = (run_hook before s).2) ∧
      (∀ calls : List Call, (run_hook calls State.init).2.classifier_runs ≤ 1) ∧
      (∀ (s : State) (p1 p2 : Platform) (i1 i2 : DelayLoadInfo),
        s.module_name_checked = false →
        (load_exe_hook p1 dliNotePreLoadLibrary i1 s).2 =
            ⟨true, check_module_name p1, s.classifier_runs + 1⟩ ∧
          (load_exe_hook p2 dliNotePreLoadLibrary i2
              (load_exe_hook p1 dliNotePreLoadLibrary i1 s).2).2 =
            (load_exe_hook p1 dliNotePreLoadLibrary i1 s).2 ∧
          (load_exe_hook p2 dliNotePreLoadLibrary i2
              (load_exe_hook p1 dliNotePreLoadLibrary i1 s).2).1 =
            if check_module_name p1 = true ∨ eq_ignoring_case i2.szDll (lit "node.exe") then
              GetModuleHandle p2
            else NULL) := by
  refine ⟨?_, ?_, ?_⟩
  · intro s before after h
    rw [run_hook_append]
    exact run_hook_state_of_checked after _ h
  · intro calls
    exact run_hook_runs_le_one calls State.init (by simp [State.init])
  · intro s p1 p2 i1 i2 h
    have h1 := hook_state_of_unchecked p1 i1 s h
    refine ⟨h1, ?_, ?_⟩
    · exact hook_state_of_checked p2 _ i2 _ (by rw [h1])
    · rw [hook_result_of_checked p2 i2 _ (by rw [h1]), h1]

theorem classification_once_witness :
    (run_hook ([⟨⟨some (lit "C:\\app\\node.exe"), 4194304⟩, 1, ⟨lit "node.exe"⟩⟩] ++
          [⟨⟨some (lit "D:\\other\\addon.node"), 4194304⟩, 1, ⟨lit "kernel32.dll"⟩⟩,
            ⟨⟨none, 4194304⟩, 5, ⟨lit "node.exe"⟩⟩]) State.init).2 =
        (run_hook [⟨⟨some (lit "C:\\app\\node.exe"), 4194304⟩, 1, ⟨lit "node.exe"⟩⟩]
          State.init).2 ∧
      (load_exe_hook ⟨some (lit "C:\\app\\node.exe"), 4194304⟩ dliNotePreLoadLibrary
          ⟨lit "node.exe"⟩ State.init).2 =
        ⟨true, check_module_name ⟨some (lit "C:\\app\\node.exe"), 4194304⟩, 0 + 1⟩ :=
  ⟨classification_once.1 State.init
      [⟨⟨some (lit "C:\\app\\node.exe"), 4194304⟩, 1, ⟨lit "node.exe"⟩⟩]
      [⟨⟨some (lit "D:\\other\\addon.node"), 4194304⟩, 1, ⟨lit "kernel32.dll"⟩⟩,
        ⟨⟨none, 4194304⟩, 5, ⟨lit "node.exe"⟩⟩] (by decide),
    (classification_once.2.2 State.init ⟨some (lit "C:\\app\\node.exe"), 4194304⟩
      ⟨some (lit "D:\\other\\addon.node"), 4194304⟩ ⟨lit "node.exe"⟩ ⟨lit "kernel32.dll"⟩
      rfl).1⟩

/-- C8: from a classified state, any number of calls with the same event,
name and platform return the same pointer each time (the same decision and,
when handled, the same handle), and the state after them is the state before. -/
theorem load_exe_hook_idempotent (p : Platform) (event : Nat) (info : DelayLoadInfo)
    (s : State) (n : Nat) (h : s.module_name_checked = true) :
    run_hook (List.replicate n ⟨p, event, info⟩) s =
      (List.replicate n (load_exe_hook p event info s).1, s) := by
  induction n with
  | zero => rfl
  | succ k ih =>
    simp only [List.replicate_succ, run_hook]
    rw [hook_state_of_checked p event info s h, ih]

theorem load_exe_hook_idempotent_witness :
    run_hook (List.replicate 3 ⟨⟨some (lit "C:\\app\\node.exe"), 4194304⟩, 1, ⟨lit "NODE.EXE"⟩⟩)
        ⟨true, false, 1⟩ =
      (List.replicate 3 (load_exe_hook ⟨some (lit "C:\\app\\node.exe"), 4194304⟩ 1
        ⟨lit "NODE.EXE"⟩ ⟨true, false, 1⟩).1, ⟨true, false, 1⟩) :=
  load_exe_hook_idempotent ⟨some (lit "C:\\app\\node.exe"), 4194304⟩ 1 ⟨lit "NODE.EXE"⟩
    ⟨true, false, 1⟩ 3 rfl

/-- C9, as claimed, fails: on an event other than the pre-load notification the
call returns before touching the flags, so two unclassified states that
differ in the stale `ignore_delay_load` still differ after the call. -/
theorem stale_flag_states_differ :
    (load_exe_hook ⟨some (lit "C:\\app\\node.exe"), 4194304⟩ 0 ⟨lit "node.exe"⟩
        ⟨false, true, 0⟩).2 ≠
      (load_exe_hook ⟨some (lit "C:\\app\\node.exe"), 4194304⟩ 0 ⟨lit "node.exe"⟩
        ⟨false, false, 0⟩).2 := by
  decide

/-- C9, amended: `ignore_delay_load` is never read before it has been computed.
For every call that starts with `module_name_checked` clear, the returned
pointer is the same for both prior values of `ignore_delay_load`; on the
pre-load event the resulting state is the same too, the flag being
overwritten with the classifier's result before it is read; on any other
event the call returns `NULL` and leaves the state, stale flag included, as
it was. -/
theorem stale_flag_unread (p : Platform) (event : Nat) (info : DelayLoadInfo)
    (b1 b2 : Bool) (n : Nat) :
    (load_exe_hook p event info ⟨false, b1, n⟩).1 =
        (load_exe_hook p event info ⟨false, b2, n⟩).1 ∧
      (event = dliNotePreLoadLibrary →
        (load_exe_hook p event info ⟨false, b1, n⟩).2 =
          (load_exe_hook p event info ⟨false, b2, n⟩).2) ∧
      (event ≠ dliNotePreLoadLibrary →
        load_exe_hook p event info ⟨false, b1, n⟩ = (NULL, ⟨false, b1, n⟩)) := by
  by_cases he : event = dliNotePreLoadLibrary
  · subst he
    refine ⟨?_, ?_, fun h => absurd rfl h⟩
    · rw [hook_result_of_unchecked p info _ rfl, hook_result_of_unchecked p info _ rfl]
    · intro _
      rw [hook_state_of_unchecked p info _ rfl, hook_state_of_unchecked p info _ rfl]
  · refine ⟨?_, fun h => absurd h he, fun _ => hook_of_other_event p event info _ he⟩
    rw [hook_of_other_event p event info _ he, hook_of_other_event p event info _ he]

theorem stale_flag_unread_witness :
    (load_exe_hook ⟨some (lit "C:\\app\\node.exe"), 4194304⟩ 1 ⟨lit "node.exe"⟩
        ⟨false, true, 0⟩).2 =
      (load_exe_hook ⟨some (lit "C:\\app\\node.exe"), 4194304⟩ 1 ⟨lit "node.exe"⟩
        ⟨false, false, 0⟩).2 ∧
    load_exe_hook ⟨some (lit "C:\\app\\node.exe"), 4194304⟩ 0 ⟨lit "node.exe"⟩
        ⟨false, true, 0⟩ = (NULL, ⟨false, true, 0⟩) :=
  ⟨(stale_flag_unread ⟨some (lit "C:\\app\\node.exe"), 4194304⟩ 1 ⟨lit "node.exe"⟩
      true false 0).2.1 rfl,
    (stale_flag_unread ⟨some (lit "C:\\app\\node.exe"), 4194304⟩ 0 ⟨lit "node.exe"⟩
      true false 0).2.2 (by decide)⟩

/-- C10: the stateful hook refines the stateless decision. From the initial
state, on a platform that does not change, the pointers returned over any
finite sequence of calls are, call by call, those of `stateless_decision`:
the handle of the process image when the event is the pre-load notification
and the classifier holds or the name is `node.exe` up to case, `NULL`
otherwise, whatever calls came before. -/
theorem load_exe_hook_refines_stateless (p : Platform) (calls : List (Nat × DelayLoadInfo)) :
    (run_hook (calls.map (fun c => ⟨p, c.1, c.2⟩)) State.init).1 =
      calls.map (fun c => stateless_decision p c.1 c.2) := by
  have inv : ∀ (cs : List (Nat × DelayLoadInfo)) (s : State),
      (s.module_name_checked = true → s.ignore_delay_load = check_module_name p) →
      (run_hook (cs.map (fun c => ⟨p, c.1, c.2⟩)) s).1 =
        cs.map (fun c => stateless_decision p c.1 c.2) := by
    intro cs
    induction cs with
    | nil => intro s _; rfl
    | cons c cs ih =>
      intro s hs
      simp only [List.map_cons, run_hook]
      by_cases he : c.1 = dliNotePreLoadLibrary
      · cases hc : s.module_name_checked
        · rw [he, hook_result_of_unchecked p c.2 s hc, hook_state_of_unchecked p c.2 s hc,
            ih _ (fun _ => rfl)]
          simp [stateless_decision, he]
        · rw [he, hook_result_of_checked p c.2 s hc, hook_state_of_checked p _ c.2 s hc,
            ih s hs, hs hc]
          simp [stateless_decision, he]
      · rw [hook_of_other_event p c.1 c.2 s he, ih s hs]
        simp [stateless_decision, he]
  exact inv calls State.init (by simp [State.init])

/-- C5: `check_module_name` returns `false` whenever the path query reports
the buffer length, `512`, as the length copied (the path was cut), and
whenever `_wsplitpath_s` fails on the retrieved path, whatever the path is. -/
theorem check_module_name_conservative (p : Platform)
    (h : (GetModuleFileNameW p 512).2 = 512 ∨
      _wsplitpath_s (GetModuleFileNameW p 512).1 = none) :
    check_module_name p = false := by
  unfold check_module_name
  simp only
  rcases h with h | h
  · rw [h]; simp
  · rw [h]; simp

set_option maxRecDepth 100000 in
theorem check_module_name_conservative_witness :
    ((GetModuleFileNameW
          ⟨some (lit "C:\\" ++ (List.replicate 50 (lit "aaaaaaaaa\\")).flatten ++ lit "abc.nodex"),
            4194304⟩ 512).2 = 512 ∧
      (GetModuleFileNameW
          ⟨some (lit "C:\\" ++ (List.replicate 50 (lit "aaaaaaaaa\\")).flatten ++ lit "abc.nodex"),
            4194304⟩ 512).1.drop 506 =
        lit ".node" ∧
      check_module_name
          ⟨some (lit "C:\\" ++ (List.replicate 50 (lit "aaaaaaaaa\\")).flatten ++ lit "abc.nodex"),
            4194304⟩ = false) ∧
    (_wsplitpath_s (GetModuleFileNameW
          ⟨some (lit "C:\\" ++ (List.replicate 30 (lit "aaaaaaaaa\\")).flatten ++ lit "addon.node"),
            4194304⟩ 512).1 = none ∧
      check_module_name
          ⟨some (lit "C:\\" ++ (List.replicate 30 (lit "aaaaaaaaa\\")).flatten ++ lit "addon.node"),
            4194304⟩ = false) :=
  ⟨⟨by decide, by decide, check_module_name_conservative _ (Or.inl (by decide))⟩,
    ⟨by decide, check_module_name_conservative _ (Or.inr (by decide))⟩⟩

/-- C6: for the process images `C:\app\addon.node` and `C:\app\ADDON.NODE`,
retrieved whole and split without error into an extension `.node` and
`.NODE`, `check_module_name` returns `false`: the extension carries its `.`
and is compared with `node`. -/
theorem check_module_name_addon_node :
    _wsplitpath_s (lit "C:\\app\\addon.node") =
        some ⟨lit "C:", lit "\\app\\", lit "addon", lit ".node"⟩ ∧
      check_module_name ⟨some (lit "C:\\app\\addon.node"), 4194304⟩ = false ∧
      _wsplitpath_s (lit "C:\\app\\ADDON.NODE") =
        some ⟨lit "C:", lit "\\app\\", lit "ADDON", lit ".NODE"⟩ ∧
      check_module_name ⟨some (lit "C:\\app\\ADDON.NODE"), 4194304⟩ = false := by
  decide

end WinDelayLoadHook
